import Mathlib

/-!
# Verification of the visual-metronome playback core

Shallow embedding of the `MetronomeServer` playback engine of the
`dionzand/visual-metronome` repository.

The repository ships two versions of the engine:

* `src/server.js` — the basic engine (redirects without counts, no fermatas,
  no tempo transitions).  Embedded below in namespace `Srv`.
* the extended engine whose source is included in the repository bundle inside
  `src/README.md` (lines 518–1734): it adds redirect counts keyed per
  (source, target) pair, fermata bar durations, inter-section tempo
  transitions, repeat/volta handling and D.S./D.C./Coda/Fine navigation.
  Embedded below in namespace `Rich`.

JavaScript numbers are modelled as `ℤ` (all the arithmetic the engine performs
on positions and counters is integral) and as `ℚ` where real division occurs
(tempo and duration computations).  JS truthiness of optional numeric fields
(`x || d`, `if (x)`) is modelled by the `jsOr*` / `optTruthy` helpers.
Out-of-range array access (`arr[i]` yielding `undefined`) is modelled by
`jsGet?` returning `none`.
-/

/-- Events emitted by the engine: socket broadcasts, the song-end callback and
MIDI messages.  `midiStart`/`midiStop`/`midiContinue` stand for the bytes
0xFA/0xFC/0xFB written to the MIDI output. -/
inductive Ev
  | playbackStarted
  | playbackPaused
  | playbackStopped
  | songEnd
  | stateUpdate
  | midiStart
  | midiStop
  | midiContinue
  | osc (address : String)
  deriving DecidableEq, Repr

/-- Subdivision values of a bar (`'none' | '8th' | '16th' | 'triplet' |
'quintuplet' | 'sextuplet'`). -/
inductive Subdiv
  | none
  | eighth
  | sixteenth
  | triplet
  | quintuplet
  | sextuplet
  deriving DecidableEq, Repr

/-- `fermataDurationType`: `'beats' | 'seconds'`. -/
inductive DurType
  | beats
  | seconds
  deriving DecidableEq, Repr

/-- A time signature `{ beats, noteValue }`. -/
structure TimeSig where
  beats : ℤ
  noteValue : ℤ
  deriving DecidableEq, Repr

/-- A bar of the input score document.  Optional fields are the ones the
engine normalises with `|| default` when building the flat bar structure. -/
structure Bar where
  chords : String := ""
  redirect : Option ℤ := Option.none
  redirectCount : Option ℤ := Option.none
  isFermata : Bool := false
  fermataDuration : Option ℚ := Option.none
  fermataDurationType : Option DurType := Option.none
  accentPattern : Option (List ℤ) := Option.none
  subdivision : Option Subdiv := Option.none
  startRepeat : Bool := false
  endRepeat : Bool := false
  volta : Option (List ℤ) := Option.none
  segno : Bool := false
  coda : Bool := false
  dalSegno : Bool := false
  daCapo : Bool := false
  fine : Bool := false
  toCoda : Bool := false
  oscAddress : Option String := Option.none
  oscArgs : Option String := Option.none
  deriving DecidableEq, Repr

/-- A section of the score: a run of bars sharing tempo and time signature. -/
structure Section where
  name : String := ""
  tempo : ℤ
  tempoTransitionBars : Option ℤ := Option.none
  timeSignature : TimeSig
  bars : List Bar
  deriving DecidableEq, Repr

/-- The score's loop settings (`scoreData.loop`). -/
structure LoopCfg where
  enabled : Bool
  start : Option ℤ
  close : Option ℤ
  deriving DecidableEq, Repr

/-- The score document handed to the engine. -/
structure Score where
  name : String := ""
  countoff : ℤ := 0
  tempoPercentage : Option ℚ := Option.none
  loop : Option LoopCfg := Option.none
  sections : List Section
  deriving DecidableEq, Repr

/-! ## JavaScript semantics helpers -/

/-- JS array access `arr[i]`: `undefined` (here `none`) outside `[0, length)`. -/
def jsGet? (l : List α) (i : ℤ) : Option α :=
  if 0 ≤ i then l.get? i.toNat else Option.none

/-- JS `x || d` on an optional integer field: `undefined`, `null` and `0` are
falsy and give the default. -/
def jsOrZ (o : Option ℤ) (d : ℤ) : ℤ :=
  match o with
  | Option.none => d
  | Option.some v => if v = 0 then d else v

/-- JS `x || d` on an optional rational field. -/
def jsOrQ (o : Option ℚ) (d : ℚ) : ℚ :=
  match o with
  | Option.none => d
  | Option.some v => if v = 0 then d else v

/-- JS truthiness of an optional numeric field: present and non-zero. -/
def optTruthy (o : Option ℤ) : Bool :=
  match o with
  | Option.none => false
  | Option.some v => v != 0

/-- JS `Math.round`: round half away from zero upward, i.e. `⌊x + 1/2⌋`. -/
def jsRound (q : ℚ) : ℤ := ⌊q + 1 / 2⌋

/-! ## Score-level navigation arithmetic

Both engine versions share the same absolute-bar bookkeeping: the
`seekToBar`/`executeJump` scan over sections and the `getAbsoluteBarNumber`
summation.  We define them once at score level.
-/

/-- Total number of bars of a section list (the engine's `totalBars`). -/
def sumBars (secs : List Section) : ℤ :=
  (secs.map fun sec => (sec.bars.length : ℤ)).sum

/-- The section scan of `seekToBar` (`executeJump` in the extended engine):

```js
let remaining = absoluteBarNumber; let sectionIndex = 0;
for (let i = 0; i < sections.length; i++) {
  const barsInSection = sections[i].bars.length;
  if (remaining <= barsInSection) { sectionIndex = i; break; }
  remaining -= barsInSection; sectionIndex++;
}
```

Returns the final `(remaining, sectionIndex)` pair. -/
def scanSections : List Section → ℤ → ℤ → ℤ × ℤ
  | [], remaining, idx => (remaining, idx)
  | sec :: rest, remaining, idx =>
    if remaining ≤ sec.bars.length then (remaining, idx)
    else scanSections rest (remaining - sec.bars.length) (idx + 1)

/-- The position `seekToBar` establishes:
`currentSectionIndex = min(sectionIndex, sections.length - 1)`,
`currentBarInSection = remaining - 1`. -/
def jumpTarget (secs : List Section) (n : ℤ) : ℤ × ℤ :=
  let p := scanSections secs n 0
  (min p.2 ((secs.length : ℤ) - 1), p.1 - 1)

/-- `getAbsoluteBarNumber` outside countoff:
`1 + Σ_{i < currentSectionIndex} sections[i].bars.length + currentBarInSection`.
(The JS loop does not run for a negative index, matching `toNat`; the engine
never holds an index beyond `sections.length`, where JS would throw.) -/
def absAt (secs : List Section) (si bi : ℤ) : ℤ :=
  1 + sumBars (secs.take si.toNat) + bi

lemma sumBars_nonneg (secs : List Section) : 0 ≤ sumBars secs := by
  induction secs with
  | nil => simp [sumBars]
  | cons sec rest ih =>
    simp only [sumBars, List.map_cons, List.sum_cons]
    have : (0 : ℤ) ≤ (sec.bars.length : ℤ) := Int.ofNat_nonneg _
    have h2 : 0 ≤ (rest.map fun s => (s.bars.length : ℤ)).sum := ih
    omega

lemma sumBars_cons (sec : Section) (rest : List Section) :
    sumBars (sec :: rest) = (sec.bars.length : ℤ) + sumBars rest := by
  simp [sumBars]

/-- Correctness of the section scan: for an in-range absolute bar number the
loop stops at the section containing it, with `remaining` the 1-based bar
offset inside that section. -/
lemma scanSections_spec (secs : List Section) (n i : ℤ)
    (h1 : 1 ≤ n) (h2 : n ≤ sumBars secs) :
    ∃ (j : ℕ) (sec : Section), secs.get? j = Option.some sec ∧
      scanSections secs n i = (n - sumBars (secs.take j), i + j) ∧
      1 ≤ n - sumBars (secs.take j) ∧
      n - sumBars (secs.take j) ≤ (sec.bars.length : ℤ) := by
  induction secs generalizing n i with
  | nil =>
    exfalso
    simp [sumBars] at h2
    omega
  | cons sec rest ih =>
    by_cases hle : n ≤ (sec.bars.length : ℤ)
    · refine ⟨0, sec, rfl, ?_, ?_, ?_⟩
      · simp [scanSections, hle, sumBars]
      · simpa [sumBars] using h1
      · simpa [sumBars] using hle
    · have hrec1 : 1 ≤ n - (sec.bars.length : ℤ) := by omega
      have hrec2 : n - (sec.bars.length : ℤ) ≤ sumBars rest := by
        rw [sumBars_cons] at h2; omega
      obtain ⟨j, s, hget, hscan, hlo, hhi⟩ := ih (n - (sec.bars.length : ℤ)) (i + 1) hrec1 hrec2
      refine ⟨j + 1, s, by simpa using hget, ?_, ?_, ?_⟩
      · have hstep : scanSections (sec :: rest) n i
            = scanSections rest (n - (sec.bars.length : ℤ)) (i + 1) := by
          simp [scanSections, hle]
        have htake : sumBars (List.take (j + 1) (sec :: rest))
            = (sec.bars.length : ℤ) + sumBars (List.take j rest) := by
          simp [List.take_succ_cons, sumBars_cons]
        rw [hstep, hscan, Prod.mk.injEq]
        constructor
        · rw [htake]; ring
        · push_cast; ring
      · have htake : sumBars (List.take (j + 1) (sec :: rest))
            = (sec.bars.length : ℤ) + sumBars (List.take j rest) := by
          simp [List.take_succ_cons, sumBars_cons]
        omega
      · have htake : sumBars (List.take (j + 1) (sec :: rest))
            = (sec.bars.length : ℤ) + sumBars (List.take j rest) := by
          simp [List.take_succ_cons, sumBars_cons]
        omega

/-- Packaged form of the scan correctness: for an in-range absolute bar number
`jumpTarget` lands on a valid `(section, barInSection)` pair and the
absolute-bar summation inverts it. -/
lemma jumpTarget_spec (secs : List Section) (n : ℤ)
    (h1 : 1 ≤ n) (h2 : n ≤ sumBars secs) :
    ∃ (j : ℕ) (sec : Section), secs.get? j = Option.some sec ∧
      jumpTarget secs n = ((j : ℤ), n - sumBars (secs.take j) - 1) ∧
      0 ≤ n - sumBars (secs.take j) - 1 ∧
      n - sumBars (secs.take j) - 1 < (sec.bars.length : ℤ) ∧
      absAt secs (j : ℤ) (n - sumBars (secs.take j) - 1) = n := by
  obtain ⟨j, sec, hget, hscan, hlo, hhi⟩ := scanSections_spec secs n 0 h1 h2
  have hjlt : j < secs.length := List.get?_eq_some.mp hget |>.1
  refine ⟨j, sec, hget, ?_, by omega, by omega, ?_⟩
  · have hjz : (j : ℤ) < (secs.length : ℤ) := by exact_mod_cast hjlt
    simp only [jumpTarget, hscan]
    rw [Prod.mk.injEq]
    exact ⟨by omega, by ring⟩
  · unfold absAt
    simp only [Int.toNat_natCast]
    ring

/-! ## The basic engine: `src/server.js` -/

namespace Srv

/-- One entry of the flat bar array built by `buildBarStructure`
(`src/server.js` lines 68–93). -/
structure FlatBar where
  absoluteNumber : ℤ
  sectionIndex : ℤ
  barInSection : ℤ
  sectionName : String
  tempo : ℤ
  timeSignature : TimeSig
  chords : String
  redirect : Option ℤ
  accentPattern : List ℤ
  subdivision : Subdiv
  oscAddress : Option String
  oscArgs : Option String
  deriving DecidableEq, Repr

/-- Flatten the bars of one section, continuing the absolute numbering. -/
def flattenSection (sec : Section) (si : ℤ) : List Bar → ℤ → ℤ → List FlatBar
  | [], _, _ => []
  | b :: rest, absNum, bi =>
    { absoluteNumber := absNum
      sectionIndex := si
      barInSection := bi
      sectionName := sec.name
      tempo := sec.tempo
      timeSignature := sec.timeSignature
      chords := b.chords
      redirect := b.redirect
      accentPattern := b.accentPattern.getD []
      subdivision := b.subdivision.getD Subdiv.none
      oscAddress := b.oscAddress
      oscArgs := b.oscArgs } :: flattenSection sec si rest (absNum + 1) (bi + 1)

/-- `buildBarStructure` (`src/server.js` lines 68–93): a flat array of all
bars with their section info, absolute numbers starting at 1. -/
def flattenSections : List Section → ℤ → ℤ → List FlatBar
  | [], _, _ => []
  | sec :: rest, absNum, si =>
    flattenSection sec si sec.bars absNum 0
      ++ flattenSections rest (absNum + sec.bars.length) (si + 1)

/-- The flat bar array of a score. -/
def buildFlatBars (score : Score) : List FlatBar :=
  flattenSections score.sections 1 0

/-- The transport/server state of the basic engine.  `events` records, in
order, the socket emissions, the song-end callback firing and the MIDI bytes
written; `intervalRunning`/`clockRunning` model the two `setInterval` timers;
`clockTempo` is the tempo the MIDI pulse timer was started at. -/
structure Server where
  scoreData : Score
  repeatSong : Bool
  loopEnabled : Bool
  loopStart : Option ℤ
  loopEnd : Option ℤ
  isPlaying : Bool
  inCountoff : Bool
  countoffBarsRemaining : ℤ
  currentSectionIndex : ℤ
  currentBarInSection : ℤ
  currentBeat : ℤ
  barStartTime : Option ℤ
  intervalRunning : Bool
  lastTriggeredBar : ℤ
  oscEnabled : Bool
  midiEnabled : Bool
  midiOutput : Bool
  clockRunning : Bool
  clockTempo : ℤ
  events : List Ev
  deriving DecidableEq, Repr

/-- The flat bars the server navigates over (rebuilt from `scoreData` by the
constructor and by `updateScore`, hence always in sync with it). -/
def flatBars (s : Server) : List FlatBar := buildFlatBars s.scoreData

/-- `getAbsoluteBarNumber` (lines 95–106): negative during countoff, else the
1-based absolute number of the current position. -/
def getAbsoluteBarNumber (s : Server) : ℤ :=
  if s.inCountoff then -s.countoffBarsRemaining
  else absAt s.scoreData.sections s.currentSectionIndex s.currentBarInSection

/-- `getCurrentBarInfo` (lines 108–129).  During countoff it fabricates a
pseudo-bar from the first section (when the score has no sections the JS
code would throw on `firstSection.tempo`; that is modelled as `none`). -/
def getCurrentBarInfo (s : Server) : Option FlatBar :=
  if s.inCountoff then
    match s.scoreData.sections.head? with
    | Option.some fs =>
      Option.some
        { absoluteNumber := 0
          sectionIndex := 0
          barInSection := 0
          sectionName := "Countoff"
          tempo := fs.tempo
          timeSignature := fs.timeSignature
          chords := ""
          redirect := Option.none
          accentPattern := [0]
          subdivision := Subdiv.none
          oscAddress := Option.none
          oscArgs := Option.none }
    | Option.none => Option.none
  else jsGet? (flatBars s) (getAbsoluteBarNumber s - 1)

/-- `getCurrentTempo` (lines 368–374): the current section's tempo,
`sections[0]?.tempo || 120` during countoff, `section?.tempo || 120` else. -/
def getCurrentTempo (s : Server) : ℤ :=
  if s.inCountoff then jsOrZ (s.scoreData.sections.head?.map Section.tempo) 120
  else jsOrZ ((jsGet? s.scoreData.sections s.currentSectionIndex).map Section.tempo) 120

/-- `getBarDuration` (lines 599–607): bar duration in milliseconds.
`adjustedTempo = tempo * (tempoPercentage/100)` with the percentage read from
the score (`|| 100`), `beatsPerSecond = adjustedTempo/60`,
`secondsPerBar = beatsPerBar / beatsPerSecond`. -/
def getBarDuration (score : Score) (tempo : ℤ) (timeSignature : TimeSig) : ℚ :=
  let beatsPerBar : ℚ := (timeSignature.beats : ℚ)
  let tempoPercentage := jsOrQ score.tempoPercentage 100
  let adjustedTempo := (tempo : ℚ) * (tempoPercentage / 100)
  let beatsPerSecond := adjustedTempo / 60
  let secondsPerBar := beatsPerBar / beatsPerSecond
  secondsPerBar * 1000

/-- `getSubdivisionCount` (lines 461–470). -/
def getSubdivisionCount : Subdiv → ℤ
  | Subdiv.eighth => 2
  | Subdiv.sixteenth => 4
  | Subdiv.triplet => 3
  | Subdiv.quintuplet => 5
  | Subdiv.sextuplet => 6
  | Subdiv.none => 1

/-- `stopMidiClock` (lines 266–281): cancel the pulse timer and, when an
output is open, send MIDI Stop (0xFC). -/
def stopMidiClock (s : Server) : Server :=
  let s1 := { s with clockRunning := false }
  if s1.midiOutput then { s1 with events := s1.events ++ [Ev.midiStop] } else s1

/-- `startMidiClock` (lines 237–264): when MIDI is enabled and an output is
open, cancel a previous timer (sending MIDI Stop), send MIDI Start (0xFA) and
start the 24-PPQN pulse timer at the given tempo. -/
def startMidiClock (tempo : ℤ) (s : Server) : Server :=
  if s.midiEnabled && s.midiOutput then
    let s1 := stopMidiClock s
    { s1 with
      events := s1.events ++ [Ev.midiStart]
      clockRunning := true
      clockTempo := tempo }
  else s

/-- `sendMidiContinue` (lines 283–292): send MIDI Continue (0xFB) when MIDI is
enabled and an output is open. -/
def sendMidiContinue (s : Server) : Server :=
  if s.midiEnabled && s.midiOutput then { s with events := s.events ++ [Ev.midiContinue] } else s

/-- `seekToBar` (lines 413–438): locate the section/bar of the requested
absolute bar (clamping the section index), reset the beat, clear countoff,
restamp the bar start time and broadcast a state update. -/
def seekToBar (now n : ℤ) (s : Server) : Server :=
  let p := jumpTarget s.scoreData.sections n
  { s with
    currentSectionIndex := p.1
    currentBarInSection := p.2
    currentBeat := 0
    inCountoff := false
    barStartTime := Option.some now
    events := s.events ++ [Ev.stateUpdate] }

/-- `stopPlayback` (lines 392–411): full transport reset, cancel the tick
timer, stop the MIDI clock and broadcast `playback-stopped`. -/
def stopPlayback (s : Server) : Server :=
  let s1 := { s with
    isPlaying := false
    inCountoff := false
    countoffBarsRemaining := 0
    currentSectionIndex := 0
    currentBarInSection := 0
    currentBeat := 0
    barStartTime := Option.none
    lastTriggeredBar := -1
    intervalRunning := false }
  let s2 := stopMidiClock s1
  { s2 with events := s2.events ++ [Ev.playbackStopped] }

/-- `pause` (lines 376–390). -/
def pause (s : Server) : Server :=
  if s.isPlaying then
    let s1 := { s with isPlaying := false, intervalRunning := false }
    let s2 := stopMidiClock s1
    { s2 with events := s2.events ++ [Ev.playbackPaused] }
  else s

/-- `play` (lines 335–366): enter countoff on a fresh start when configured,
stamp the bar start time if absent, send MIDI Continue when resuming
(`wasPlaying` = `barStartTime !== null`), start the MIDI clock at the current
tempo, start the tick loop and broadcast `playback-started`. -/
def play (now : ℤ) (s : Server) : Server :=
  if s.isPlaying then s
  else
    let wasPlaying := s.barStartTime.isSome
    let s1 := { s with isPlaying := true }
    let s2 :=
      if !optTruthy s1.barStartTime && s1.scoreData.countoff > 0 then
        { s1 with
          inCountoff := true
          countoffBarsRemaining := s1.scoreData.countoff
          currentSectionIndex := 0
          currentBarInSection := 0
          currentBeat := 0 }
      else s1
    let s3 := if !optTruthy s2.barStartTime then { s2 with barStartTime := Option.some now } else s2
    let currentTempo := getCurrentTempo s3
    let s4 :=
      if wasPlaying then startMidiClock currentTempo (sendMidiContinue s3)
      else startMidiClock currentTempo s3
    let s5 := { s4 with intervalRunning := true }
    { s5 with events := s5.events ++ [Ev.playbackStarted] }

/-- The guard `currentBarInfo && currentBarInfo.redirect` of
`advanceToNextBar`. -/
def redirectGuard : Option FlatBar → Bool
  | Option.some fb => optTruthy fb.redirect
  | Option.none => false

/-- The guard `this.loopEnabled && this.loopEnd && currentAbsoluteBar >=
this.loopEnd` of `advanceToNextBar`. -/
def loopGuard (s : Server) (currentAbsoluteBar : ℤ) : Bool :=
  s.loopEnabled && optTruthy s.loopEnd && decide (jsOrZ s.loopEnd 0 ≤ currentAbsoluteBar)

/-- `advanceToNextBar` (lines 532–597), invoked at bar completion:
countoff tick, else redirect, else song loop, else plain advance into the
next bar/section or end-of-song handling (song-end callback, then repeat from
bar 1 or full stop). -/
def advanceToNextBar (now : ℤ) (s : Server) : Server :=
  if s.inCountoff then
    let s1 := { s with countoffBarsRemaining := s.countoffBarsRemaining - 1 }
    let s2 :=
      if s1.countoffBarsRemaining ≤ (0 : ℤ) then
        { s1 with inCountoff := false, currentSectionIndex := 0, currentBarInSection := 0 }
      else s1
    { s2 with currentBeat := 0, barStartTime := Option.some now }
  else
    let currentAbsoluteBar := getAbsoluteBarNumber s
    let currentBarInfo := jsGet? (flatBars s) (currentAbsoluteBar - 1)
    if redirectGuard currentBarInfo then
      seekToBar now (jsOrZ ((currentBarInfo.map FlatBar.redirect).join) 0) s
    else if loopGuard s currentAbsoluteBar then
      seekToBar now (jsOrZ s.loopStart 1) { s with lastTriggeredBar := -1 }
    else
      match jsGet? s.scoreData.sections s.currentSectionIndex with
      | Option.none => s  -- JS throws on `currentSection.bars`; unreachable from valid states
      | Option.some currentSection =>
        if s.currentBarInSection + 1 < currentSection.bars.length then
          { s with
            currentBarInSection := s.currentBarInSection + 1
            currentBeat := 0
            barStartTime := Option.some now }
        else if s.currentSectionIndex + 1 < (s.scoreData.sections.length : ℤ) then
          { s with
            currentSectionIndex := s.currentSectionIndex + 1
            currentBarInSection := 0
            currentBeat := 0
            barStartTime := Option.some now }
        else
          -- end of song: fire the song-end callback
          let s1 := { s with events := s.events ++ [Ev.songEnd] }
          if s1.repeatSong then
            { s1 with
              currentSectionIndex := 0
              currentBarInSection := 0
              lastTriggeredBar := -1
              currentBeat := 0
              barStartTime := Option.some now }
          else stopPlayback s1

/-- `sendOscMessage` (lines 195–208), with the comma-separated argument string
left unmodelled (it only shapes the OSC payload). -/
def sendOscMessage (address : String) (s : Server) : Server :=
  if s.oscEnabled then { s with events := s.events ++ [Ev.osc address] } else s

/-- One invocation of the 60 Hz tick callback of `startPlaybackLoop`
(lines 472–530): stop when there is no current bar, advance at bar
completion or update the beat, fire the at-most-once-per-bar OSC trigger and
broadcast a state snapshot. -/
def tick (now : ℤ) (s : Server) : Server :=
  if !s.isPlaying then s
  else
    match getCurrentBarInfo s with
    | Option.none => stopPlayback s
    | Option.some barInfo =>
      let barDuration := getBarDuration s.scoreData barInfo.tempo barInfo.timeSignature
      let beatDuration := barDuration / (barInfo.timeSignature.beats : ℚ)
      let elapsed : ℤ := now - s.barStartTime.getD 0
      let newBeat : ℤ := ⌊(elapsed : ℚ) / beatDuration⌋
      let s1 :=
        if (barDuration : ℚ) ≤ (elapsed : ℚ) then advanceToNextBar now s
        else if newBeat ≠ s.currentBeat then { s with currentBeat := newBeat } else s
      let s2 :=
        if !s1.inCountoff && barInfo.absoluteNumber ≠ s1.lastTriggeredBar then
          let s2a := { s1 with lastTriggeredBar := barInfo.absoluteNumber }
          match barInfo.oscAddress with
          | Option.some addr => sendOscMessage addr s2a
          | Option.none => s2a
        else s1
      { s2 with events := s2.events ++ [Ev.stateUpdate] }

end Srv

/-! ## The extended engine (source bundled in `src/README.md`, lines 518–1734) -/

namespace Rich

/-- Jump modes of the extended `seekToBar`. -/
inductive JumpMode
  | direct
  | nextBeat
  | afterBar
  deriving DecidableEq, Repr

/-- One entry of the repeat stack: `{startBar, timesPlayed, endBar}`. -/
structure RepeatEntry where
  startBar : ℤ
  timesPlayed : ℤ
  endBar : ℤ
  deriving DecidableEq, Repr

/-- One entry of the extended flat bar array (`buildBarStructure`,
extended source lines 110–152), with the `|| default` normalisations
applied (`redirectCount || 1`, `isFermata || false`, `fermataDuration || 4`,
`fermataDurationType || 'beats'`, `tempoTransitionBars || 0`, …). -/
structure FlatBar where
  absoluteNumber : ℤ
  sectionIndex : ℤ
  barInSection : ℤ
  sectionName : String
  tempo : ℤ
  tempoTransitionBars : ℤ
  timeSignature : TimeSig
  chords : String
  redirect : Option ℤ
  redirectCount : ℤ
  isFermata : Bool
  fermataDuration : ℚ
  fermataDurationType : DurType
  accentPattern : List ℤ
  subdivision : Subdiv
  startRepeat : Bool
  endRepeat : Bool
  volta : Option (List ℤ)
  segno : Bool
  coda : Bool
  dalSegno : Bool
  daCapo : Bool
  toCoda : Bool
  fine : Bool
  oscAddress : Option String
  oscArgs : Option String
  deriving DecidableEq, Repr

/-- Flatten the bars of one section, continuing the absolute numbering. -/
def flattenSection (sec : Section) (si : ℤ) : List Bar → ℤ → ℤ → List FlatBar
  | [], _, _ => []
  | b :: rest, absNum, bi =>
    { absoluteNumber := absNum
      sectionIndex := si
      barInSection := bi
      sectionName := sec.name
      tempo := sec.tempo
      tempoTransitionBars := jsOrZ sec.tempoTransitionBars 0
      timeSignature := sec.timeSignature
      chords := b.chords
      redirect := b.redirect
      redirectCount := jsOrZ b.redirectCount 1
      isFermata := b.isFermata
      fermataDuration := jsOrQ b.fermataDuration 4
      fermataDurationType := b.fermataDurationType.getD DurType.beats
      accentPattern := b.accentPattern.getD []
      subdivision := b.subdivision.getD Subdiv.none
      startRepeat := b.startRepeat
      endRepeat := b.endRepeat
      volta := b.volta
      segno := b.segno
      coda := b.coda
      dalSegno := b.dalSegno
      daCapo := b.daCapo
      toCoda := b.toCoda
      fine := b.fine
      oscAddress := b.oscAddress
      oscArgs := b.oscArgs } :: flattenSection sec si rest (absNum + 1) (bi + 1)

/-- `buildBarStructure` of the extended engine. -/
def flattenSections : List Section → ℤ → ℤ → List FlatBar
  | [], _, _ => []
  | sec :: rest, absNum, si =>
    flattenSection sec si sec.bars absNum 0
      ++ flattenSections rest (absNum + sec.bars.length) (si + 1)

/-- The flat bar array of a score (extended fields). -/
def buildFlatBars (score : Score) : List FlatBar :=
  flattenSections score.sections 1 0

/-- The transport/server state of the extended engine.  `redirectTracking` is
the map keyed by the `` `${sourceBar}-${targetBar}` `` string, modelled as a
total function on (source, target) pairs defaulting to 0 (the engine's
`if (!tracking[key]) tracking[key] = 0` makes the absent key and 0
indistinguishable). -/
structure Server where
  scoreData : Score
  repeatSong : Bool
  loopEnabled : Bool
  loopStart : Option ℤ
  loopEnd : Option ℤ
  isPlaying : Bool
  inCountoff : Bool
  countoffBarsRemaining : ℤ
  currentSectionIndex : ℤ
  currentBarInSection : ℤ
  currentBeat : ℤ
  barStartTime : Option ℚ
  intervalRunning : Bool
  lastTriggeredBar : ℤ
  oscEnabled : Bool
  midiEnabled : Bool
  midiOutput : Bool
  clockRunning : Bool
  clockTempo : ℤ
  pendingJump : Option (ℤ × JumpMode)
  syncOffset : ℚ
  repeatStack : List RepeatEntry
  currentPassNumber : ℤ
  hasJumpedViaDSorDC : Bool
  shouldWatchForToCodaOrFine : Bool
  loopCurrentBarEnabled : Bool
  loopCurrentBarNumber : Option ℤ
  redirectTracking : ℤ × ℤ → ℤ
  events : List Ev

/-- The flat bars the extended server navigates over. -/
def flatBars (s : Server) : List FlatBar := buildFlatBars s.scoreData

/-- `getAbsoluteBarNumber` (extended source lines 154–165), identical to the
basic engine's. -/
def getAbsoluteBarNumber (s : Server) : ℤ :=
  if s.inCountoff then -s.countoffBarsRemaining
  else absAt s.scoreData.sections s.currentSectionIndex s.currentBarInSection

/-- `getCurrentTempo` (extended source lines 499–535): the current section's
tempo, linearly interpolated towards the next section's tempo when the next
section declares `tempoTransitionBars > 0` and the current bar lies within
that many bars of the end of the current section
(`barsFromEnd = totalBarsInSection - currentBarInSection`,
`progress = (transitionBars - barsFromEnd + 1) / transitionBars`,
`Math.round` of the interpolation). -/
def getCurrentTempo (s : Server) : ℤ :=
  if s.inCountoff then jsOrZ (s.scoreData.sections.head?.map Section.tempo) 120
  else
    match jsGet? s.scoreData.sections s.currentSectionIndex with
    | Option.none => 120
    | Option.some currentSection =>
      match jsGet? s.scoreData.sections (s.currentSectionIndex + 1) with
      | Option.some nextSection =>
        let transitionBars := jsOrZ nextSection.tempoTransitionBars 0
        if 0 < transitionBars then
          let totalBarsInSection : ℤ := currentSection.bars.length
          let barsFromEnd := totalBarsInSection - s.currentBarInSection
          if barsFromEnd ≤ transitionBars then
            let fromTempo : ℚ := currentSection.tempo
            let toTempo : ℚ := nextSection.tempo
            let progress : ℚ := ((transitionBars : ℚ) - (barsFromEnd : ℚ) + 1) / (transitionBars : ℚ)
            jsRound (fromTempo + (toTempo - fromTempo) * progress)
          else currentSection.tempo
        else currentSection.tempo
      | Option.none => currentSection.tempo

/-- `getBarDuration` (extended source lines 1123–1145): fermata bars last
`fermataDuration * 1000` ms when the duration type is seconds, else
`fermataDuration / (adjustedTempo/60) * 1000`; normal bars last
`beatsPerBar / (adjustedTempo/60) * 1000`, with
`adjustedTempo = tempo * (tempoPercentage/100)`. -/
def getBarDuration (score : Score) (tempo : ℚ) (timeSignature : TimeSig)
    (isFermata : Bool) (fermataDuration : ℚ) (fermataDurationType : DurType) : ℚ :=
  if isFermata then
    match fermataDurationType with
    | DurType.seconds => fermataDuration * 1000
    | DurType.beats =>
      let tempoPercentage := jsOrQ score.tempoPercentage 100
      let adjustedTempo := tempo * (tempoPercentage / 100)
      let beatsPerSecond := adjustedTempo / 60
      let secondsForDuration := fermataDuration / beatsPerSecond
      secondsForDuration * 1000
  else
    let beatsPerBar : ℚ := (timeSignature.beats : ℚ)
    let tempoPercentage := jsOrQ score.tempoPercentage 100
    let adjustedTempo := tempo * (tempoPercentage / 100)
    let beatsPerSecond := adjustedTempo / 60
    let secondsPerBar := beatsPerBar / beatsPerSecond
    secondsPerBar * 1000

/-- `stopMidiClock` (extended source lines 342–357). -/
def stopMidiClock (s : Server) : Server :=
  let s1 := { s with clockRunning := false }
  if s1.midiOutput then { s1 with events := s1.events ++ [Ev.midiStop] } else s1

/-- `executeJump` (extended source lines 617–642): the seek primitive all
jump-producing navigation routes through. -/
def executeJump (now : ℚ) (n : ℤ) (s : Server) : Server :=
  let p := jumpTarget s.scoreData.sections n
  { s with
    currentSectionIndex := p.1
    currentBarInSection := p.2
    currentBeat := 0
    inCountoff := false
    barStartTime := Option.some now
    events := s.events ++ [Ev.stateUpdate] }

/-- `seekToBar` (extended source lines 607–615): immediate jump for mode
`'direct'`, else store a pending jump. -/
def seekToBar (now : ℚ) (n : ℤ) (mode : JumpMode) (s : Server) : Server :=
  match mode with
  | JumpMode.direct => executeJump now n s
  | _ => { s with pendingJump := Option.some (n, mode) }

/-- `stopPlayback` (extended source lines 577–605): full reset of the
transport state including redirect tracking, pending jumps, sync offset,
loop-current-bar and repeat/volta/D.S. trackers. -/
def stopPlayback (s : Server) : Server :=
  let s1 := { s with
    isPlaying := false
    inCountoff := false
    countoffBarsRemaining := 0
    currentSectionIndex := 0
    currentBarInSection := 0
    currentBeat := 0
    barStartTime := Option.none
    lastTriggeredBar := -1
    redirectTracking := fun _ => 0
    pendingJump := Option.none
    syncOffset := 0
    loopCurrentBarEnabled := false
    loopCurrentBarNumber := Option.none
    repeatStack := []
    currentPassNumber := 1
    hasJumpedViaDSorDC := false
    shouldWatchForToCodaOrFine := false
    intervalRunning := false }
  let s2 := stopMidiClock s1
  { s2 with events := s2.events ++ [Ev.playbackStopped] }

/-- `findMatchingStartRepeat` (extended source lines 817–826): scan backward
from `endBarIndex - 1` for a `startRepeat` bar (1-indexed result), default 1. -/
def findStartRepeatAux (bars : List FlatBar) : ℕ → ℤ
  | 0 => 1
  | i + 1 =>
    match bars.get? i with
    | Option.some fb => if fb.startRepeat then (i : ℤ) + 1 else findStartRepeatAux bars i
    | Option.none => findStartRepeatAux bars i

/-- `findMatchingStartRepeat` entry point (`endBarIndex` is 0-based). -/
def findMatchingStartRepeat (s : Server) (endBarIndex : ℤ) : ℤ :=
  findStartRepeatAux (flatBars s) endBarIndex.toNat

/-- `shouldSkipBarDueToVolta` (extended source lines 828–837): skip a
volta-tagged bar when the current pass number is not in its volta list.
(The single-number backwards-compatibility normalisation is subsumed by
modelling `volta` as a list.) -/
def shouldSkipBarDueToVolta (currentPassNumber : ℤ) (barInfo : FlatBar) : Bool :=
  match barInfo.volta with
  | Option.none => false
  | Option.some voltaArray => !(voltaArray.contains currentPassNumber)

/-- Inclusive integer range `[lo, hi]` for the scan loops. -/
def intRangeIncl (lo hi : ℤ) : List ℤ :=
  (List.range (hi + 1 - lo).toNat).map fun k => lo + (k : ℤ)

/-- The forward scan past the end repeat of `getMaxVoltaInRepeatSection`:
keep folding volta maxima while consecutive bars carry volta tags, stop at
the first bar without one. -/
def voltaMaxAfterAux (bars : List FlatBar) : ℕ → ℤ → ℤ → ℤ
  | 0, _, acc => acc
  | fuel + 1, i, acc =>
    if i < (bars.length : ℤ) then
      match jsGet? bars i with
      | Option.some fb =>
        match fb.volta with
        | Option.some voltaArray => voltaMaxAfterAux bars fuel (i + 1) (voltaArray.foldl max acc)
        | Option.none => acc
      | Option.none => acc
    else acc

/-- `getMaxVoltaInRepeatSection` (extended source lines 839–869): the highest
volta number inside the repeat section, and in the consecutive volta bars
immediately after the end repeat; defaults to 1.
(`Math.max(acc, ...voltaArray)` is `voltaArray.foldl max acc`; an empty
array leaves the accumulator unchanged, matching `Math.max(acc, -Infinity)`
never being selected as a volta count in practice.) -/
def getMaxVoltaInRepeatSection (s : Server) (startBarIndex endBarIndex : ℤ) : ℤ :=
  let inSection := (intRangeIncl startBarIndex endBarIndex).foldl
    (fun acc i =>
      match jsGet? (flatBars s) i with
      | Option.some fb =>
        match fb.volta with
        | Option.some voltaArray => voltaArray.foldl max acc
        | Option.none => acc
      | Option.none => acc) 1
  voltaMaxAfterAux (flatBars s) (flatBars s).length (endBarIndex + 1) inSection

/-- `findSegnoBar` (extended source lines 871–879). -/
def findSegnoBar (s : Server) : Option ℤ :=
  ((flatBars s).findIdx? FlatBar.segno).map fun i => (i : ℤ) + 1

/-- `findCodaBar` (extended source lines 881–889). -/
def findCodaBar (s : Server) : Option ℤ :=
  ((flatBars s).findIdx? FlatBar.coda).map fun i => (i : ℤ) + 1

/-- Pointwise update of the redirect-tracking map. -/
def updTrack (f : ℤ × ℤ → ℤ) (key : ℤ × ℤ) (v : ℤ) : ℤ × ℤ → ℤ :=
  fun p => if p = key then v else f p

/-- `existingRepeat.timesPlayed++`: increment the counter of the first stack
entry whose `startBar` matches (the JS code mutates the object `find`
returned). -/
def bumpFirst : List RepeatEntry → ℤ → List RepeatEntry
  | [], _ => []
  | r :: rest, startRepeatBar =>
    if r.startBar = startRepeatBar then { r with timesPlayed := r.timesPlayed + 1 } :: rest
    else r :: bumpFirst rest startRepeatBar

/-- The volta skip loop at the end of `advanceToNextBar` (extended source
lines 1071–1108): bounded by `safetyCounter < 100`, skip forward over bars
whose volta list excludes the current pass number, cleaning up repeat-stack
entries of skipped end-repeat bars, stopping at the end of the song. -/
def voltaSkipLoop : ℕ → Server → Server
  | 0, t => t
  | fuel + 1, t =>
    let nextAbsoluteBar := getAbsoluteBarNumber t
    match jsGet? (flatBars t) (nextAbsoluteBar - 1) with
    | Option.none => t
    | Option.some nextBarInfo =>
      if shouldSkipBarDueToVolta t.currentPassNumber nextBarInfo then
        let t1 :=
          if nextBarInfo.endRepeat then
            let startRepeatBar := findMatchingStartRepeat t (nextAbsoluteBar - 1)
            { t with repeatStack := t.repeatStack.filter fun r => !(r.startBar == startRepeatBar) }
          else t
        match jsGet? t1.scoreData.sections t1.currentSectionIndex with
        | Option.none => t1  -- JS throws on `section.bars`; unreachable from valid states
        | Option.some sec =>
          if t1.currentBarInSection + 1 < (sec.bars.length : ℤ) then
            voltaSkipLoop fuel { t1 with currentBarInSection := t1.currentBarInSection + 1 }
          else if t1.currentSectionIndex + 1 < (t1.scoreData.sections.length : ℤ) then
            voltaSkipLoop fuel { t1 with currentSectionIndex := t1.currentSectionIndex + 1, currentBarInSection := 0 }
          else t1
      else t

/-- The pass-number reset after the volta skip loop (extended source lines
1110–1117). -/
def passResetAfterSkip (t : Server) : Server :=
  let currentAbsoluteBarAfterSkip := getAbsoluteBarNumber t
  match jsGet? (flatBars t) (currentAbsoluteBarAfterSkip - 1) with
  | Option.some fb =>
    if fb.volta.isNone && decide (1 < t.currentPassNumber) && decide (t.repeatStack = []) then
      { t with currentPassNumber := 1 }
    else t
  | Option.none => t

/-- The trailing volta skip, pass-number reset and timestamp restamp shared
by all non-jumping advance paths (extended source lines 1071–1120). -/
def finishAdvance (now : ℚ) (t : Server) : Server :=
  let t1 := voltaSkipLoop 100 t
  let t2 := passResetAfterSkip t1
  { t2 with currentBeat := 0, barStartTime := Option.some now }

/-- Plain advance (extended source lines 1040–1069): next bar in the section,
else next section, else end-of-song handling (song-end callback, then repeat
from bar 1 or full stop). -/
def plainAdvance (now : ℚ) (t : Server) : Server :=
  match jsGet? t.scoreData.sections t.currentSectionIndex with
  | Option.none => t  -- JS throws on `currentSection.bars`; unreachable from valid states
  | Option.some currentSection =>
    if t.currentBarInSection + 1 < (currentSection.bars.length : ℤ) then
      finishAdvance now { t with currentBarInSection := t.currentBarInSection + 1 }
    else if t.currentSectionIndex + 1 < (t.scoreData.sections.length : ℤ) then
      finishAdvance now { t with currentSectionIndex := t.currentSectionIndex + 1, currentBarInSection := 0 }
    else
      let t1 := { t with events := t.events ++ [Ev.songEnd] }
      if t1.repeatSong then
        finishAdvance now { t1 with
          currentSectionIndex := 0
          currentBarInSection := 0
          lastTriggeredBar := -1 }
      else stopPlayback t1

/-- Song loop check (extended source lines 1033–1038), falling through to the
plain advance.  `cab` is the absolute bar number captured at the top of
`advanceToNextBar`. -/
def loopStep (now : ℚ) (cab : ℤ) (t : Server) : Server :=
  if t.loopEnabled && optTruthy t.loopEnd && decide (jsOrZ t.loopEnd 0 ≤ cab) then
    seekToBar now (jsOrZ t.loopStart 1) JumpMode.direct { t with lastTriggeredBar := -1 }
  else plainAdvance now t

/-- End repeat (extended source lines 987–1031), falling through to the loop
check. -/
def endRepeatStep (now : ℚ) (cab : ℤ) (fb : FlatBar) (t : Server) : Server :=
  if fb.endRepeat then
    let shouldHonorEndRepeat :=
      fb.volta.isNone || !shouldSkipBarDueToVolta t.currentPassNumber fb
    if shouldHonorEndRepeat then
      let startRepeatBar := findMatchingStartRepeat t (cab - 1)
      match t.repeatStack.find? fun r => r.startBar == startRepeatBar with
      | Option.some existingRepeat =>
        let timesPlayed := existingRepeat.timesPlayed + 1
        let t1 := { t with repeatStack := bumpFirst t.repeatStack startRepeatBar }
        let maxVoltaNumber := getMaxVoltaInRepeatSection t1 (startRepeatBar - 1) (cab - 1)
        let maxRepeats := if 1 < maxVoltaNumber then maxVoltaNumber else 2
        if timesPlayed < maxRepeats then
          seekToBar now startRepeatBar JumpMode.direct
            { t1 with currentPassNumber := t1.currentPassNumber + 1 }
        else
          loopStep now cab { t1 with
            repeatStack := t1.repeatStack.filter fun r => !(r.startBar == startRepeatBar)
            currentPassNumber := 1 }
      | Option.none =>
        seekToBar now startRepeatBar JumpMode.direct
          { t with
            repeatStack := t.repeatStack ++ [⟨startRepeatBar, 1, cab⟩]
            currentPassNumber := 2 }
    else
      let startRepeatBar := findMatchingStartRepeat t (cab - 1)
      loopStep now cab { t with
        repeatStack := t.repeatStack.filter fun r => !(r.startBar == startRepeatBar)
        currentPassNumber := 1 }
  else loopStep now cab t

/-- Redirect with limit (extended source lines 966–985), falling through to
the end-repeat check.  `if (!tracking[key]) tracking[key] = 0` is a no-op in
the total-function model of the tracking map. -/
def redirectStep (now : ℚ) (cab : ℤ) (fb : FlatBar) (t : Server) : Server :=
  if optTruthy fb.redirect then
    let redirectKey := (cab, jsOrZ fb.redirect 0)
    if t.redirectTracking redirectKey < fb.redirectCount then
      seekToBar now (jsOrZ fb.redirect 0) JumpMode.direct
        { t with redirectTracking :=
            updTrack t.redirectTracking redirectKey (t.redirectTracking redirectKey + 1) }
    else
      endRepeatStep now cab fb { t with redirectTracking := updTrack t.redirectTracking redirectKey 0 }
  else endRepeatStep now cab fb t

/-- Da Capo (extended source lines 957–964), falling through to the redirect
check. -/
def daCapoStep (now : ℚ) (cab : ℤ) (fb : FlatBar) (t : Server) : Server :=
  if fb.daCapo && !t.hasJumpedViaDSorDC then
    seekToBar now 1 JumpMode.direct
      { t with hasJumpedViaDSorDC := true, shouldWatchForToCodaOrFine := true }
  else redirectStep now cab fb t

/-- Dal Segno (extended source lines 943–955); a missing Segno marker falls
through. -/
def dalSegnoStep (now : ℚ) (cab : ℤ) (fb : FlatBar) (t : Server) : Server :=
  if fb.dalSegno && !t.hasJumpedViaDSorDC then
    match findSegnoBar t with
    | Option.some segnoBar =>
      seekToBar now segnoBar JumpMode.direct
        { t with hasJumpedViaDSorDC := true, shouldWatchForToCodaOrFine := true }
    | Option.none => daCapoStep now cab fb t
  else daCapoStep now cab fb t

/-- To Coda (extended source lines 930–941); a missing Coda marker falls
through. -/
def toCodaStep (now : ℚ) (cab : ℤ) (fb : FlatBar) (t : Server) : Server :=
  if fb.toCoda && t.shouldWatchForToCodaOrFine then
    match findCodaBar t with
    | Option.some codaBar =>
      seekToBar now codaBar JumpMode.direct { t with shouldWatchForToCodaOrFine := false }
    | Option.none => dalSegnoStep now cab fb t
  else dalSegnoStep now cab fb t

/-- `advanceToNextBar` of the extended engine (extended source lines
891–1121): the full prioritized navigation resolver — loop-current-bar, then
pending after-bar jump, then countoff, then the marker/redirect/repeat/loop
chain on the completed bar, then plain advance. -/
def advanceToNextBar (now : ℚ) (s : Server) : Server :=
  if s.loopCurrentBarEnabled && optTruthy s.loopCurrentBarNumber && !s.inCountoff then
    executeJump now (jsOrZ s.loopCurrentBarNumber 0) s
  else if (s.pendingJump.map fun pj => pj.2 == JumpMode.afterBar).getD false then
    let s1 := executeJump now ((s.pendingJump.map Prod.fst).getD 0) s
    { s1 with pendingJump := Option.none }
  else if s.inCountoff then
    let s1 := { s with countoffBarsRemaining := s.countoffBarsRemaining - 1 }
    let s2 :=
      if s1.countoffBarsRemaining ≤ (0 : ℤ) then
        { s1 with inCountoff := false, currentSectionIndex := 0, currentBarInSection := 0 }
      else s1
    { s2 with currentBeat := 0, barStartTime := Option.some now }
  else
    let currentAbsoluteBar := getAbsoluteBarNumber s
    match jsGet? (flatBars s) (currentAbsoluteBar - 1) with
    | Option.none => loopStep now currentAbsoluteBar s
    | Option.some fb =>
      -- Fine (extended source lines 923–928)
      if fb.fine && s.shouldWatchForToCodaOrFine then stopPlayback s
      else toCodaStep now currentAbsoluteBar fb s

end Rich

/-! ## Derived notions used by the claims -/

/-- Rounding a cast integer is the identity. -/
lemma jsRound_intCast (n : ℤ) : jsRound ((n : ℚ)) = n := by
  unfold jsRound
  rw [Int.floor_int_add]
  norm_num

namespace Srv

/-- The position invariant of the transport state: outside countoff,
`(currentSectionIndex, currentBarInSection)` addresses an existing bar of an
existing section. -/
def validPosition (s : Server) : Bool :=
  decide (0 ≤ s.currentSectionIndex) &&
    match jsGet? s.scoreData.sections s.currentSectionIndex with
    | Option.some sec =>
      decide (0 ≤ s.currentBarInSection) && decide (s.currentBarInSection < (sec.bars.length : ℤ))
    | Option.none => false

end Srv

/-! ## C4 — effective tempo with inter-section transitions -/

/-- C4: the effective tempo at `(currentSectionIndex, currentBarInSection)`
equals the current section's declared tempo, except when the next section
declares `tempoTransitionBars > 0` and the current bar lies within that many
bars of the end of the current section, where it is the rounded linear
interpolation between the two section tempos; at the last bar of the section
it equals the next section's declared tempo, and at the bar preceding the
transition window it equals the current section's tempo unchanged. -/
theorem C4_effective_tempo (s : Rich.Server) (cur nxt : Section) (tb : ℤ)
    (hco : s.inCountoff = false)
    (hcur : jsGet? s.scoreData.sections s.currentSectionIndex = Option.some cur)
    (hnxt : jsGet? s.scoreData.sections (s.currentSectionIndex + 1) = Option.some nxt)
    (htb : jsOrZ nxt.tempoTransitionBars 0 = tb)
    (htbpos : 0 < tb) :
    ((cur.bars.length : ℤ) - s.currentBarInSection ≤ tb →
      Rich.getCurrentTempo s
        = jsRound ((cur.tempo : ℚ) + ((nxt.tempo : ℚ) - (cur.tempo : ℚ))
            * (((tb : ℚ) - (((cur.bars.length : ℤ) - s.currentBarInSection : ℤ) : ℚ) + 1) / (tb : ℚ)))) ∧
    (tb < (cur.bars.length : ℤ) - s.currentBarInSection →
      Rich.getCurrentTempo s = cur.tempo) ∧
    (s.currentBarInSection = (cur.bars.length : ℤ) - 1 →
      Rich.getCurrentTempo s = nxt.tempo) ∧
    ((cur.bars.length : ℤ) - s.currentBarInSection = tb + 1 →
      Rich.getCurrentTempo s = cur.tempo) := by
  have hunfold : Rich.getCurrentTempo s
      = if (cur.bars.length : ℤ) - s.currentBarInSection ≤ tb then
          jsRound ((cur.tempo : ℚ) + ((nxt.tempo : ℚ) - (cur.tempo : ℚ))
            * (((tb : ℚ) - (((cur.bars.length : ℤ) - s.currentBarInSection : ℤ) : ℚ) + 1) / (tb : ℚ)))
        else cur.tempo := by
    simp only [Rich.getCurrentTempo, hco, Bool.false_eq_true, if_false, hcur, hnxt, htb,
      htbpos, if_pos]
  refine ⟨?_, ?_, ?_, ?_⟩
  · intro h
    rw [hunfold, if_pos h]
  · intro h
    rw [hunfold, if_neg (by omega)]
  · intro h
    have h1 : (cur.bars.length : ℤ) - s.currentBarInSection = 1 := by omega
    rw [hunfold, if_pos (by omega), h1]
    have htbne : (tb : ℚ) ≠ 0 := by exact_mod_cast htbpos.ne.symm
    have : ((tb : ℚ) - ((1 : ℤ) : ℚ) + 1) / (tb : ℚ) = 1 := by
      push_cast
      field_simp
    rw [this]
    ring_nf
    exact jsRound_intCast nxt.tempo
  · intro h
    rw [hunfold, if_neg (by omega)]

/-- C4 witness: a concrete two-section score (100 → 160 BPM, 2 transition
bars over a 4-bar first section), positioned at the last bar of the first
section: the effective tempo is the next section's 160 BPM. -/
def c4Score : Score :=
  { sections :=
      [ { name := "A", tempo := 100, timeSignature := { beats := 4, noteValue := 4 },
          bars := [{}, {}, {}, {}] },
        { name := "B", tempo := 160, tempoTransitionBars := Option.some 2,
          timeSignature := { beats := 4, noteValue := 4 }, bars := [{}, {}] } ] }

/-- A concrete extended-engine state positioned at section 0, bar `bi`. -/
def c4State (bi : ℤ) : Rich.Server :=
  { scoreData := c4Score
    repeatSong := false
    loopEnabled := false
    loopStart := Option.none
    loopEnd := Option.none
    isPlaying := true
    inCountoff := false
    countoffBarsRemaining := 0
    currentSectionIndex := 0
    currentBarInSection := bi
    currentBeat := 0
    barStartTime := Option.some 0
    intervalRunning := true
    lastTriggeredBar := -1
    oscEnabled := false
    midiEnabled := false
    midiOutput := false
    clockRunning := false
    clockTempo := 0
    pendingJump := Option.none
    syncOffset := 0
    repeatStack := []
    currentPassNumber := 1
    hasJumpedViaDSorDC := false
    shouldWatchForToCodaOrFine := false
    loopCurrentBarEnabled := false
    loopCurrentBarNumber := Option.none
    redirectTracking := fun _ => 0
    events := [] }

theorem C4_effective_tempo_witness :
    Rich.getCurrentTempo (c4State 3) = 160 ∧ Rich.getCurrentTempo (c4State 1) = 100 :=
  ⟨(C4_effective_tempo (c4State 3) (c4Score.sections.get ⟨0, by decide⟩)
      (c4Score.sections.get ⟨1, by decide⟩) 2 rfl (by decide) (by decide) (by decide)
      (by decide)).2.2.1 (by decide),
   (C4_effective_tempo (c4State 1) (c4Score.sections.get ⟨0, by decide⟩)
      (c4Score.sections.get ⟨1, by decide⟩) 2 rfl (by decide) (by decide) (by decide)
      (by decide)).2.2.2 (by decide)⟩

/-! ## C5 — fermata bar durations -/

/-- C5: a fermata bar lasts `fermataDuration * 1000` ms when the duration
type is `'seconds'` (for every tempo and tempo percentage), and
`fermataDuration / (adjustedTempo/60) * 1000` ms with
`adjustedTempo = tempo * tempoPercentage/100` when the type is `'beats'`;
in particular 3 seconds give 3000 ms at any tempo, and 4 beats at 120 BPM
(percentage unset) give 2000 ms. -/
theorem C5_fermata_duration (score : Score) (t : ℚ) (ts : TimeSig) (d p : ℚ) :
    (Rich.getBarDuration score t ts true d DurType.seconds = d * 1000) ∧
    (score.tempoPercentage = Option.some p → p ≠ 0 →
      Rich.getBarDuration score t ts true d DurType.beats
        = d / (t * (p / 100) / 60) * 1000) ∧
    (score.tempoPercentage = Option.none →
      Rich.getBarDuration score t ts true d DurType.beats
        = d / (t * ((100 : ℚ) / 100) / 60) * 1000) ∧
    (Rich.getBarDuration score t ts true 3 DurType.seconds = 3000) ∧
    (score.tempoPercentage = Option.none →
      Rich.getBarDuration score 120 ts true 4 DurType.beats = 2000) := by
  refine ⟨?_, ?_, ?_, ?_, ?_⟩
  · simp [Rich.getBarDuration]
  · intro hp hp0
    simp [Rich.getBarDuration, hp, jsOrQ, hp0]
  · intro hp
    simp [Rich.getBarDuration, hp, jsOrQ]
  · simp [Rich.getBarDuration]
    norm_num
  · intro hp
    simp [Rich.getBarDuration, hp, jsOrQ]
    norm_num

theorem C5_fermata_duration_witness :
    Rich.getBarDuration c4Score 77 { beats := 4, noteValue := 4 } true 3 DurType.seconds = 3000 ∧
    Rich.getBarDuration c4Score 120 { beats := 4, noteValue := 4 } true 4 DurType.beats = 2000 :=
  ⟨(C5_fermata_duration c4Score 77 { beats := 4, noteValue := 4 } 3 1).2.2.2.1,
   (C5_fermata_duration c4Score 120 { beats := 4, noteValue := 4 } 4 1).2.2.2.2 rfl⟩

/-! ## C6 — normal bar durations and the global tempo percentage -/

/-- C6: a normal bar lasts `beatsPerBar / (adjustedTempo/60) * 1000` ms with
`adjustedTempo = tempo * p/100` (`p` defaulting to 100 when the score's
`tempoPercentage` is unset), and the tempo percentage scales every bar
duration uniformly by `100/p`. -/
theorem C6_bar_duration (score : Score) (t : ℤ) (ts : TimeSig) (p : ℚ)
    (ht : 0 < t) (hb : 1 ≤ ts.beats) :
    (score.tempoPercentage = Option.some p → 0 < p →
      Srv.getBarDuration score t ts
        = (ts.beats : ℚ) / ((t : ℚ) * (p / 100) / 60) * 1000) ∧
    (score.tempoPercentage = Option.none →
      Srv.getBarDuration score t ts
        = (ts.beats : ℚ) / ((t : ℚ) * ((100 : ℚ) / 100) / 60) * 1000) ∧
    (score.tempoPercentage = Option.some p → 0 < p →
      Srv.getBarDuration score t ts
        = (100 / p) * Srv.getBarDuration { score with tempoPercentage := Option.none } t ts) := by
  have htq : ((t : ℚ)) ≠ 0 := by
    have : (0 : ℚ) < (t : ℚ) := by exact_mod_cast ht
    exact this.ne.symm
  refine ⟨?_, ?_, ?_⟩
  · intro hp hp0
    simp [Srv.getBarDuration, hp, jsOrQ, hp0.ne.symm]
  · intro hp
    simp [Srv.getBarDuration, hp, jsOrQ]
  · intro hp hp0
    simp only [Srv.getBarDuration, hp, jsOrQ, if_neg hp0.ne.symm]
    field_simp
    ring

theorem C6_bar_duration_witness :
    Srv.getBarDuration { sections := [], tempoPercentage := Option.some 50 } 120
        { beats := 4, noteValue := 4 }
      = (4 : ℚ) / ((120 : ℚ) * ((50 : ℚ) / 100) / 60) * 1000 :=
  (C6_bar_duration { sections := [], tempoPercentage := Option.some 50 } 120
      { beats := 4, noteValue := 4 } 50 (by decide) (by decide)).1 rfl (by norm_num)

/-! ## C10 — seek/absolute-bar round trip -/

/-- C10: for every score and every absolute bar number `n` with
`1 ≤ n ≤ totalBars`, `seekToBar(n)` clears countoff and establishes
`getAbsoluteBarNumber() = n`. -/
theorem C10_seek_roundtrip (s : Srv.Server) (now n : ℤ)
    (h1 : 1 ≤ n) (h2 : n ≤ sumBars s.scoreData.sections) :
    (Srv.seekToBar now n s).inCountoff = false ∧
    Srv.getAbsoluteBarNumber (Srv.seekToBar now n s) = n := by
  obtain ⟨j, sec, hget, hjt, hlo, hhi, habs⟩ := jumpTarget_spec s.scoreData.sections n h1 h2
  refine ⟨rfl, ?_⟩
  simp only [Srv.getAbsoluteBarNumber, Srv.seekToBar, hjt, Bool.false_eq_true, if_false]
  exact habs

/-- A minimal valid basic-engine state over a given score (stopped, at
section 0 bar 0). -/
def mkSrv (score : Score) : Srv.Server :=
  { scoreData := score
    repeatSong := false
    loopEnabled := false
    loopStart := Option.none
    loopEnd := Option.none
    isPlaying := false
    inCountoff := false
    countoffBarsRemaining := 0
    currentSectionIndex := 0
    currentBarInSection := 0
    currentBeat := 0
    barStartTime := Option.none
    intervalRunning := false
    lastTriggeredBar := -1
    oscEnabled := false
    midiEnabled := false
    midiOutput := false
    clockRunning := false
    clockTempo := 0
    events := [] }

theorem C10_seek_roundtrip_witness :
    (Srv.seekToBar 7 5 (mkSrv c4Score)).inCountoff = false ∧
    Srv.getAbsoluteBarNumber (Srv.seekToBar 7 5 (mkSrv c4Score)) = 5 :=
  C10_seek_roundtrip (mkSrv c4Score) 7 5 (by decide) (by decide)

/-! ## C7 — the position invariant and out-of-range seeks -/

/-- A one-section, one-bar score. -/
def c7Score : Score :=
  { sections :=
      [ { name := "A", tempo := 120, timeSignature := { beats := 4, noteValue := 4 },
          bars := [{}] } ] }

/-- C7 counterexample: the invariant is NOT preserved by `seekToBar` with an
arbitrary requested bar.  On a one-bar score the valid initial state seeks to
bar 3; the seek primitive clamps only the section index, leaving
`currentBarInSection = 1` outside the single section's single bar, with
countoff cleared — the resulting state addresses no valid FlatBar. -/
theorem C7_invariant_counterexample :
    Srv.validPosition (mkSrv c7Score) = true ∧
    (mkSrv c7Score).inCountoff = false ∧
    (Srv.seekToBar 0 3 (mkSrv c7Score)).inCountoff = false ∧
    (Srv.seekToBar 0 3 (mkSrv c7Score)).currentSectionIndex = 0 ∧
    (Srv.seekToBar 0 3 (mkSrv c7Score)).currentBarInSection = 1 ∧
    Srv.validPosition (Srv.seekToBar 0 3 (mkSrv c7Score)) = false := by
  refine ⟨?_, rfl, rfl, ?_, ?_, ?_⟩ <;> decide

/-- C7 amended: `seekToBar` establishes the position invariant whenever the
requested absolute bar number is within `1..totalBars` (for arbitrary
requests only the section index is clamped and `currentBarInSection` may be
out of range). -/
theorem C7_seek_invariant (s : Srv.Server) (now n : ℤ)
    (h1 : 1 ≤ n) (h2 : n ≤ sumBars s.scoreData.sections) :
    Srv.validPosition (Srv.seekToBar now n s) = true := by
  obtain ⟨j, sec, hget, hjt, hlo, hhi, habs⟩ := jumpTarget_spec s.scoreData.sections n h1 h2
  simp only [Srv.validPosition, Srv.seekToBar, hjt]
  have hjget : jsGet? s.scoreData.sections ((j : ℤ)) = Option.some sec := by
    rw [List.get?_eq_getElem?] at hget
    simp [jsGet?, hget]
  simp only [hjget]
  simp only [Bool.and_eq_true, decide_eq_true_eq]
  refine ⟨by omega, by omega, by omega⟩

theorem C7_seek_invariant_witness :
    Srv.validPosition (Srv.seekToBar 0 6 (mkSrv c4Score)) = true :=
  C7_seek_invariant (mkSrv c4Score) 0 6 (by decide) (by decide)

/-! ## C3 — song loop at bar completion -/

/-- C3: at bar completion outside countoff, when the current bar has no
redirect, the loop is enabled, a loop end is set and the current absolute bar
is ≥ `loopEnd`, the engine seeks to `loopStart` (defaulting to bar 1 when
unset) with the OSC last-triggered marker reset to -1. -/
theorem C3_song_loop (s : Srv.Server) (now e : ℤ) (fb : Srv.FlatBar)
    (hco : s.inCountoff = false)
    (hfb : jsGet? (Srv.flatBars s) (Srv.getAbsoluteBarNumber s - 1) = Option.some fb)
    (hred : fb.redirect = Option.none)
    (hloop : s.loopEnabled = true)
    (hend : s.loopEnd = Option.some e) (he : e ≠ 0)
    (hge : e ≤ Srv.getAbsoluteBarNumber s) :
    Srv.advanceToNextBar now s
      = Srv.seekToBar now (jsOrZ s.loopStart 1) { s with lastTriggeredBar := -1 } ∧
    (Srv.advanceToNextBar now s).lastTriggeredBar = -1 ∧
    (s.loopStart = Option.none → jsOrZ s.loopStart 1 = 1) := by
  have hguard : Srv.loopGuard s (Srv.getAbsoluteBarNumber s) = true := by
    simp [Srv.loopGuard, hloop, hend, optTruthy, jsOrZ, he, hge]
  have hmain : Srv.advanceToNextBar now s
      = Srv.seekToBar now (jsOrZ s.loopStart 1) { s with lastTriggeredBar := -1 } := by
    simp only [Srv.advanceToNextBar, hco, Bool.false_eq_true, if_false, hfb,
      Srv.redirectGuard, hred, optTruthy, hguard, if_true, Bool.false_eq_true]
  refine ⟨hmain, ?_, ?_⟩
  · rw [hmain]
    rfl
  · intro hs
    simp [jsOrZ, hs]

/-- A two-bar, one-section score with the loop range 1–2 enabled. -/
def c3Score : Score :=
  { loop := Option.some { enabled := true, start := Option.some 1, close := Option.some 2 }
    sections :=
      [ { name := "A", tempo := 120, timeSignature := { beats := 4, noteValue := 4 },
          bars := [{}, {}] } ] }

/-- The basic-engine state playing bar 2 of `c3Score` with the loop armed
(loop fields initialised from `scoreData.loop` as in the constructor). -/
def c3State : Srv.Server :=
  { mkSrv c3Score with
    isPlaying := true
    loopEnabled := true
    loopStart := Option.some 1
    loopEnd := Option.some 2
    currentBarInSection := 1
    barStartTime := Option.some 0
    lastTriggeredBar := 2 }

theorem C3_song_loop_witness :
    Srv.advanceToNextBar 9 c3State
      = Srv.seekToBar 9 (jsOrZ c3State.loopStart 1) { c3State with lastTriggeredBar := -1 } ∧
    (Srv.advanceToNextBar 9 c3State).lastTriggeredBar = -1 ∧
    (c3State.loopStart = Option.none → jsOrZ c3State.loopStart 1 = 1) :=
  C3_song_loop c3State 9 2
    { absoluteNumber := 2, sectionIndex := 0, barInSection := 1, sectionName := "A",
      tempo := 120, timeSignature := { beats := 4, noteValue := 4 }, chords := "",
      redirect := Option.none, accentPattern := [], subdivision := Subdiv.none,
      oscAddress := Option.none, oscArgs := Option.none }
    rfl (by decide) rfl rfl rfl (by decide) (by decide)

/-! ## C2 — end of song stops the transport exactly once -/

/-- C2: completing the last bar of the last section with `repeatSong = false`
and the song loop disabled fires the song-end callback and runs the full
stop/reset exactly once; the resulting absolute bar is 1, never exceeding the
total number of bars. -/
theorem C2_end_of_song (s : Srv.Server) (now : ℤ) (sec : Section)
    (hco : s.inCountoff = false)
    (hrs : s.repeatSong = false)
    (hle : s.loopEnabled = false)
    (hsi : s.currentSectionIndex = (s.scoreData.sections.length : ℤ) - 1)
    (hsec : jsGet? s.scoreData.sections s.currentSectionIndex = Option.some sec)
    (hbi : s.currentBarInSection = (sec.bars.length : ℤ) - 1)
    (hN : 1 ≤ sumBars s.scoreData.sections)
    (hred : Srv.redirectGuard (jsGet? (Srv.flatBars s) (Srv.getAbsoluteBarNumber s - 1)) = false) :
    Srv.advanceToNextBar now s
      = Srv.stopPlayback { s with events := s.events ++ [Ev.songEnd] } ∧
    (Srv.advanceToNextBar now s).isPlaying = false ∧
    ((Srv.advanceToNextBar now s).events.count Ev.playbackStopped
      = s.events.count Ev.playbackStopped + 1) ∧
    Srv.getAbsoluteBarNumber (Srv.advanceToNextBar now s) = 1 ∧
    Srv.getAbsoluteBarNumber (Srv.advanceToNextBar now s) ≤ sumBars s.scoreData.sections := by
  have hguard : Srv.loopGuard s (Srv.getAbsoluteBarNumber s) = false := by
    simp [Srv.loopGuard, hle]
  have hmain : Srv.advanceToNextBar now s
      = Srv.stopPlayback { s with events := s.events ++ [Ev.songEnd] } := by
    simp only [Srv.advanceToNextBar, hco, Bool.false_eq_true, if_false, hred, hguard, hsec]
    rw [if_neg (by omega), if_neg (by omega), if_neg (by simp [hrs])]
  have habs1 : Srv.getAbsoluteBarNumber (Srv.advanceToNextBar now s) = 1 := by
    rw [hmain]
    simp only [Srv.getAbsoluteBarNumber, Srv.stopPlayback, Srv.stopMidiClock]
    split <;> simp [absAt, sumBars]
  refine ⟨hmain, ?_, ?_, habs1, by omega⟩
  · rw [hmain]
    simp only [Srv.stopPlayback, Srv.stopMidiClock]
    split <;> rfl
  · rw [hmain]
    simp only [Srv.stopPlayback, Srv.stopMidiClock]
    split <;> simp [List.count_append]

/-- The basic-engine state playing the last bar (bar 6) of `c4Score`. -/
def c2State : Srv.Server :=
  { mkSrv c4Score with
    isPlaying := true
    currentSectionIndex := 1
    currentBarInSection := 1
    barStartTime := Option.some 0 }

theorem C2_end_of_song_witness :
    Srv.advanceToNextBar 3 c2State
      = Srv.stopPlayback { c2State with events := c2State.events ++ [Ev.songEnd] } ∧
    (Srv.advanceToNextBar 3 c2State).isPlaying = false ∧
    ((Srv.advanceToNextBar 3 c2State).events.count Ev.playbackStopped
      = c2State.events.count Ev.playbackStopped + 1) ∧
    Srv.getAbsoluteBarNumber (Srv.advanceToNextBar 3 c2State) = 1 ∧
    Srv.getAbsoluteBarNumber (Srv.advanceToNextBar 3 c2State) ≤ sumBars c2State.scoreData.sections :=
  C2_end_of_song c2State 3 (c4Score.sections.get ⟨1, by decide⟩)
    rfl rfl rfl (by decide) (by decide) (by decide) (by decide) (by decide)

/-! ## C9 — resuming from pause and the MIDI clock -/

/-- A basic-engine state paused mid-song (position retained, bar start time
stamped) with MIDI enabled and an output open. -/
def c9State : Srv.Server :=
  { mkSrv c4Score with
    currentSectionIndex := 0
    currentBarInSection := 2
    barStartTime := Option.some 5
    midiEnabled := true
    midiOutput := true }

/-- C9 counterexample: resuming from pause DOES send a MIDI Start (0xFA).
`play()` sends Continue first, but then calls `startMidiClock`, which
unconditionally sends a Start message before starting the pulse timer: the
event trail is Continue, Stop, Start, playback-started. -/
theorem C9_resume_counterexample :
    c9State.isPlaying = false ∧
    c9State.barStartTime = Option.some 5 ∧
    (Srv.play 9 c9State).events
      = [Ev.midiContinue, Ev.midiStop, Ev.midiStart, Ev.playbackStarted] ∧
    Ev.midiStart ∈ (Srv.play 9 c9State).events := by
  refine ⟨rfl, rfl, ?_, ?_⟩ <;> decide

/-- C9 amended: resuming from pause keeps the position and sends MIDI
Continue (0xFB) first; restarting the clock then also emits MIDI Stop (0xFC)
and MIDI Start (0xFA), so a Start is still sent on resume, after the
Continue. -/
theorem C9_resume_continue (s : Srv.Server) (now t0 : ℤ)
    (hp : s.isPlaying = false)
    (hb : s.barStartTime = Option.some t0) (ht0 : t0 ≠ 0)
    (hme : s.midiEnabled = true) (hmo : s.midiOutput = true) :
    Srv.play now s
      = { s with
          isPlaying := true
          intervalRunning := true
          clockRunning := true
          clockTempo := Srv.getCurrentTempo s
          events := s.events ++ [Ev.midiContinue, Ev.midiStop, Ev.midiStart, Ev.playbackStarted] } ∧
    (Srv.play now s).currentSectionIndex = s.currentSectionIndex ∧
    (Srv.play now s).currentBarInSection = s.currentBarInSection ∧
    (Srv.play now s).barStartTime = s.barStartTime := by
  have hmain : Srv.play now s
      = { s with
          isPlaying := true
          intervalRunning := true
          clockRunning := true
          clockTempo := Srv.getCurrentTempo s
          events := s.events ++ [Ev.midiContinue, Ev.midiStop, Ev.midiStart, Ev.playbackStarted] } := by
    simp only [Srv.play, hp, Bool.false_eq_true, if_false, hb, Option.isSome_some, optTruthy,
      Srv.sendMidiContinue, Srv.startMidiClock, Srv.stopMidiClock, hme, hmo, ht0, bne_self_eq_false]
    simp only [Srv.getCurrentTempo]
    simp [ht0]
  exact ⟨hmain, by rw [hmain], by rw [hmain], by rw [hmain, hb]⟩

theorem C9_resume_continue_witness :
    Srv.play 9 c9State
      = { c9State with
          isPlaying := true
          intervalRunning := true
          clockRunning := true
          clockTempo := Srv.getCurrentTempo c9State
          events := c9State.events
            ++ [Ev.midiContinue, Ev.midiStop, Ev.midiStart, Ev.playbackStarted] } ∧
    (Srv.play 9 c9State).currentSectionIndex = c9State.currentSectionIndex ∧
    (Srv.play 9 c9State).currentBarInSection = c9State.currentBarInSection ∧
    (Srv.play 9 c9State).barStartTime = c9State.barStartTime :=
  C9_resume_continue c9State 9 5 rfl rfl (by decide) rfl rfl

/-! ## C8 — malformed scores -/

lemma Srv.flattenSections_nil_of_empty (secs : List Section)
    (h : ∀ sec ∈ secs, sec.bars = []) (a si : ℤ) :
    Srv.flattenSections secs a si = [] := by
  induction secs generalizing a si with
  | nil => rfl
  | cons sec rest ih =>
    have hsec : sec.bars = [] := h sec (List.mem_cons_self sec rest)
    have hrest : ∀ t ∈ rest, t.bars = [] := fun t ht => h t (List.mem_cons_of_mem sec ht)
    simp only [Srv.flattenSections, hsec, Srv.flattenSection, List.nil_append]
    exact ih hrest _ _

/-- The flat bar index of a malformed score (no sections, or only empty
sections) is empty. -/
lemma Srv.buildFlatBars_nil (score : Score)
    (hmal : score.sections = [] ∨ ∀ sec ∈ score.sections, sec.bars = []) :
    Srv.buildFlatBars score = [] := by
  rcases hmal with h | h
  · simp [Srv.buildFlatBars, h, Srv.flattenSections]
  · exact Srv.flattenSections_nil_of_empty score.sections h 1 0

/-- The empty score. -/
def c8Score : Score := { sections := [] }

/-- C8 counterexample: `play()` on a malformed (empty) score DOES enter the
Playing state — `play()` never consults the flat bar index, so it sets
`isPlaying`, starts the tick loop and broadcasts `playback-started`; nothing
refuses to start. -/
theorem C8_play_counterexample :
    Srv.buildFlatBars c8Score = [] ∧
    (mkSrv c8Score).isPlaying = false ∧
    (Srv.play 4 (mkSrv c8Score)).isPlaying = true ∧
    Ev.playbackStarted ∈ (Srv.play 4 (mkSrv c8Score)).events := by
  refine ⟨?_, rfl, ?_, ?_⟩ <;> decide

/-- C8 amended: on a malformed score the flat bar index is empty, yet
`play()` still enters Playing; the refusal happens one tick later: the first
tick finds no current bar and immediately runs the full stop.  (MIDI output
disabled, which only suppresses MIDI bytes in the trace.) -/
theorem C8_malformed_play_stops (s : Srv.Server) (now now2 : ℤ)
    (hmal : s.scoreData.sections = [] ∨ ∀ sec ∈ s.scoreData.sections, sec.bars = [])
    (hp : s.isPlaying = false) (hco : s.inCountoff = false)
    (hb : s.barStartTime = Option.none) (hc : s.scoreData.countoff ≤ 0)
    (hme : s.midiEnabled = false) :
    Srv.buildFlatBars s.scoreData = [] ∧
    (Srv.play now s).isPlaying = true ∧
    Srv.tick now2 (Srv.play now s) = Srv.stopPlayback (Srv.play now s) ∧
    (Srv.tick now2 (Srv.play now s)).isPlaying = false := by
  have hflat : Srv.buildFlatBars s.scoreData = [] := Srv.buildFlatBars_nil s.scoreData hmal
  have hplay : Srv.play now s
      = { s with
          isPlaying := true
          barStartTime := Option.some now
          intervalRunning := true
          events := s.events ++ [Ev.playbackStarted] } := by
    have hcg : ¬s.scoreData.countoff > 0 := by omega
    simp [Srv.play, Srv.startMidiClock, Srv.sendMidiContinue, Srv.stopMidiClock,
      hp, hb, hme, optTruthy, hcg]
  have hinfo : Srv.getCurrentBarInfo (Srv.play now s) = Option.none := by
    rw [hplay]
    simp only [Srv.getCurrentBarInfo, hco, Bool.false_eq_true, if_false, Srv.flatBars, hflat]
    simp [jsGet?]
  have htick : Srv.tick now2 (Srv.play now s) = Srv.stopPlayback (Srv.play now s) := by
    have hplaying : (Srv.play now s).isPlaying = true := by rw [hplay]
    simp only [Srv.tick, hplaying, Bool.not_true, Bool.false_eq_true, if_false, hinfo]
  refine ⟨hflat, by rw [hplay], htick, ?_⟩
  rw [htick]
  simp only [Srv.stopPlayback, Srv.stopMidiClock]
  split <;> rfl

theorem C8_malformed_play_stops_witness :
    Srv.buildFlatBars c8Score = [] ∧
    (Srv.play 4 (mkSrv c8Score)).isPlaying = true ∧
    Srv.tick 21 (Srv.play 4 (mkSrv c8Score)) = Srv.stopPlayback (Srv.play 4 (mkSrv c8Score)) ∧
    (Srv.tick 21 (Srv.play 4 (mkSrv c8Score))).isPlaying = false :=
  C8_malformed_play_stops (mkSrv c8Score) 4 21 (Or.inl rfl) rfl rfl rfl (by decide) rfl

/-! ## C1 — redirects with counts -/

/-- Shifting the bar-in-section by one shifts the absolute bar number by
one. -/
lemma absAt_succ (secs : List Section) (si bi : ℤ) :
    absAt secs si (bi + 1) = absAt secs si bi + 1 := by
  unfold absAt
  ring

namespace Rich

/-- One completion of bar `b`: the engine is positioned on bar `b` through
its own seek primitive (playing through other bars in between does not touch
the redirect tracking) and the bar's elapsed time reaches its duration, so
the navigation resolver runs. -/
def completeBarAt (now : ℚ) (b : ℤ) (s : Server) : Server :=
  advanceToNextBar now (executeJump now b s)

/-- The volta skip loop stops immediately when the landed bar has no volta
tag. -/
lemma voltaSkipLoop_noskip (fuel : ℕ) (t : Server) (fb2 : FlatBar)
    (h : jsGet? (flatBars t) (getAbsoluteBarNumber t - 1) = Option.some fb2)
    (hv : fb2.volta = Option.none) :
    voltaSkipLoop fuel t = t := by
  cases fuel with
  | zero => rfl
  | succ n => simp [voltaSkipLoop, h, shouldSkipBarDueToVolta, hv]

/-- The pass-number reset is a no-op when the pass number is already 1. -/
lemma passResetAfterSkip_pass_one (t : Server) (hp : t.currentPassNumber = 1) :
    passResetAfterSkip t = t := by
  unfold passResetAfterSkip
  cases hq : jsGet? (flatBars t) (getAbsoluteBarNumber t - 1) with
  | none => simp [hq]
  | some fb => simp [hq, hp]

/-- `finishAdvance` only restamps beat and timestamp when the landed bar has
no volta tag and the pass number is 1. -/
lemma finishAdvance_noskip (now : ℚ) (t : Server) (fb2 : FlatBar)
    (h : jsGet? (flatBars t) (getAbsoluteBarNumber t - 1) = Option.some fb2)
    (hv : fb2.volta = Option.none) (hp : t.currentPassNumber = 1) :
    finishAdvance now t = { t with currentBeat := 0, barStartTime := Option.some now } := by
  unfold finishAdvance
  rw [voltaSkipLoop_noskip 100 t fb2 h hv]
  simp only [passResetAfterSkip_pass_one t hp]

/-- Evaluating the resolver on a completed bar that carries a (truthy)
redirect and none of the higher-priority markers: the redirect branch is
reached, jumping while the per-(source, target) counter is below
`redirectCount` and otherwise resetting the counter and falling through to
the end-repeat check. -/
lemma advance_on_redirect_bar (now : ℚ) (u : Server) (b tgt : ℤ) (fb : FlatBar)
    (hlc : u.loopCurrentBarEnabled = false)
    (hpj : u.pendingJump = Option.none)
    (hco : u.inCountoff = false)
    (hcab : getAbsoluteBarNumber u = b)
    (hlook : jsGet? (flatBars u) (b - 1) = Option.some fb)
    (hfine : fb.fine = false) (htc : fb.toCoda = false) (hds : fb.dalSegno = false)
    (hdc : fb.daCapo = false)
    (hred : fb.redirect = Option.some tgt) (htgt : tgt ≠ 0) :
    advanceToNextBar now u
      = if u.redirectTracking (b, tgt) < fb.redirectCount then
          seekToBar now tgt JumpMode.direct
            { u with redirectTracking :=
                updTrack u.redirectTracking (b, tgt) (u.redirectTracking (b, tgt) + 1) }
        else
          endRepeatStep now b fb
            { u with redirectTracking := updTrack u.redirectTracking (b, tgt) 0 } := by
  simp only [advanceToNextBar, hlc, Bool.false_eq_true, if_false, hpj, hco, hcab, hlook,
    Bool.false_and, Bool.and_false, toCodaStep, htc, dalSegnoStep, hds, daCapoStep, hdc,
    redirectStep, hred, optTruthy, jsOrZ, htgt, hfine, Option.map_none', Option.getD_none,
    bne_iff_ne, ne_eq, not_false_eq_true, if_true]

/-- The fall-through of an exhausted redirect on a bar that is not an end
repeat, with the song loop disabled: a plain advance to the next bar of the
section (which carries no volta tag). -/
lemma endRepeatStep_fallthrough (now : ℚ) (v : Server) (b : ℤ) (fb fb2 : FlatBar) (sec : Section)
    (her : fb.endRepeat = false)
    (hloop : v.loopEnabled = false)
    (hvco : v.inCountoff = false)
    (hsec : jsGet? v.scoreData.sections v.currentSectionIndex = Option.some sec)
    (hbin : v.currentBarInSection + 1 < (sec.bars.length : ℤ))
    (habs2 : absAt v.scoreData.sections v.currentSectionIndex (v.currentBarInSection + 1) = b + 1)
    (hnext : jsGet? (flatBars v) b = Option.some fb2)
    (hnv : fb2.volta = Option.none)
    (hpass : v.currentPassNumber = 1) :
    endRepeatStep now b fb v
      = { v with
          currentBarInSection := v.currentBarInSection + 1
          currentBeat := 0
          barStartTime := Option.some now } := by
  have hstep : endRepeatStep now b fb v
      = finishAdvance now { v with currentBarInSection := v.currentBarInSection + 1 } := by
    simp only [endRepeatStep, her, Bool.false_eq_true, if_false, loopStep, hloop,
      Bool.false_and, plainAdvance, hsec, hbin, if_pos]
  have hlook2 : jsGet? (flatBars { v with currentBarInSection := v.currentBarInSection + 1 })
      (getAbsoluteBarNumber { v with currentBarInSection := v.currentBarInSection + 1 } - 1)
        = Option.some fb2 := by
    simp only [getAbsoluteBarNumber]
    simp [hvco, flatBars, habs2]
    exact hnext
  rw [hstep, finishAdvance_noskip now _ fb2 hlook2 hnv (by simpa using hpass)]

/-- Full characterization of one resolver run on a completed pure-redirect
bar (no markers, no end repeat, song loop disabled, pass number 1, next bar
volta-free): jump to the target with the counter incremented while it is
below `redirectCount`, else reset the counter and advance to the next bar of
the section. -/
lemma advance_redirect_full (now : ℚ) (u : Server) (b tgt k : ℤ)
    (fb fb2 : FlatBar) (sec : Section)
    (hlc : u.loopCurrentBarEnabled = false)
    (hpj : u.pendingJump = Option.none)
    (hco : u.inCountoff = false)
    (hcab : getAbsoluteBarNumber u = b)
    (hlook : jsGet? (flatBars u) (b - 1) = Option.some fb)
    (hfine : fb.fine = false) (htc : fb.toCoda = false) (hds : fb.dalSegno = false)
    (hdc : fb.daCapo = false) (her : fb.endRepeat = false)
    (hred : fb.redirect = Option.some tgt) (htgt : tgt ≠ 0) (hk : fb.redirectCount = k)
    (hloop : u.loopEnabled = false)
    (hsec : jsGet? u.scoreData.sections u.currentSectionIndex = Option.some sec)
    (hbin : u.currentBarInSection + 1 < (sec.bars.length : ℤ))
    (habs2 : absAt u.scoreData.sections u.currentSectionIndex (u.currentBarInSection + 1) = b + 1)
    (hnext : jsGet? (flatBars u) b = Option.some fb2)
    (hnv : fb2.volta = Option.none)
    (hpass : u.currentPassNumber = 1) :
    advanceToNextBar now u
      = if u.redirectTracking (b, tgt) < k then
          executeJump now tgt
            { u with redirectTracking :=
                updTrack u.redirectTracking (b, tgt) (u.redirectTracking (b, tgt) + 1) }
        else
          { u with
            redirectTracking := updTrack u.redirectTracking (b, tgt) 0
            currentBarInSection := u.currentBarInSection + 1
            currentBeat := 0
            barStartTime := Option.some now } := by
  rw [advance_on_redirect_bar now u b tgt fb hlc hpj hco hcab hlook hfine htc hds hdc hred htgt,
    hk]
  by_cases hc : u.redirectTracking (b, tgt) < k
  · rw [if_pos hc, if_pos hc]
    rfl
  · rw [if_neg hc, if_neg hc]
    rw [endRepeatStep_fallthrough now
      { u with redirectTracking := updTrack u.redirectTracking (b, tgt) 0 }
      b fb fb2 sec her hloop hco hsec hbin habs2 hnext hnv hpass]

/-- Projected behaviour of one completion of bar `b` from any state whose
flags put the resolver on the pure-redirect path: the score, the resolver
flags and the pass number are preserved; below the count the jump lands on
the target's position with the counter incremented, at the count the counter
resets to 0 and the position advances to the next bar of `b`'s section. -/
lemma completeBarAt_spec (sc : Score) (now : ℚ) (b tgt k si bi : ℤ)
    (fb fb2 : FlatBar) (sec : Section) (t : Server)
    (hsc : t.scoreData = sc)
    (hjt : jumpTarget sc.sections b = (si, bi))
    (habs : absAt sc.sections si bi = b)
    (hfb : jsGet? (buildFlatBars sc) (b - 1) = Option.some fb)
    (hfine : fb.fine = false) (htc : fb.toCoda = false) (hds : fb.dalSegno = false)
    (hdc : fb.daCapo = false) (her : fb.endRepeat = false)
    (hred : fb.redirect = Option.some tgt) (htgt : tgt ≠ 0) (hk : fb.redirectCount = k)
    (hsec : jsGet? sc.sections si = Option.some sec)
    (hbin : bi + 1 < (sec.bars.length : ℤ))
    (hnext : jsGet? (buildFlatBars sc) b = Option.some fb2)
    (hnv : fb2.volta = Option.none)
    (hlc : t.loopCurrentBarEnabled = false)
    (hpj : t.pendingJump = Option.none)
    (hloop : t.loopEnabled = false)
    (hpass : t.currentPassNumber = 1) :
    (completeBarAt now b t).scoreData = sc ∧
    (completeBarAt now b t).loopCurrentBarEnabled = false ∧
    (completeBarAt now b t).pendingJump = Option.none ∧
    (completeBarAt now b t).loopEnabled = false ∧
    (completeBarAt now b t).currentPassNumber = 1 ∧
    (t.redirectTracking (b, tgt) < k →
      (completeBarAt now b t).redirectTracking (b, tgt) = t.redirectTracking (b, tgt) + 1 ∧
      ((completeBarAt now b t).currentSectionIndex, (completeBarAt now b t).currentBarInSection)
        = jumpTarget sc.sections tgt) ∧
    (¬ t.redirectTracking (b, tgt) < k →
      (completeBarAt now b t).redirectTracking (b, tgt) = 0 ∧
      (completeBarAt now b t).currentSectionIndex = si ∧
      (completeBarAt now b t).currentBarInSection = bi + 1) := by
  subst hsc
  have hu : executeJump now b t
      = { t with
          currentSectionIndex := si
          currentBarInSection := bi
          currentBeat := 0
          inCountoff := false
          barStartTime := Option.some now
          events := t.events ++ [Ev.stateUpdate] } := by
    simp [executeJump, hjt]
  have hfull := advance_redirect_full now (executeJump now b t) b tgt k fb fb2 sec
    (by rw [hu]; exact hlc) (by rw [hu]; exact hpj) (by rw [hu])
    (by rw [hu]; simp [getAbsoluteBarNumber, habs])
    (by rw [hu]; simpa [flatBars] using hfb)
    hfine htc hds hdc her hred htgt hk
    (by rw [hu]; exact hloop)
    (by rw [hu]; exact hsec)
    (by rw [hu]; exact hbin)
    (by rw [hu]; show absAt t.scoreData.sections si (bi + 1) = b + 1; rw [absAt_succ, habs])
    (by rw [hu]; simpa [flatBars] using hnext)
    hnv
    (by rw [hu]; exact hpass)
  rw [hu] at hfull
  unfold completeBarAt
  rw [hu, hfull]
  by_cases hc : t.redirectTracking (b, tgt) < k
  · simp only [if_pos hc]
    simp [executeJump, updTrack, hlc, hpj, hloop, hpass, hc]
  · simp only [if_neg hc]
    simp [updTrack, hlc, hpj, hloop, hpass, hc]

end Rich

/-- C1: a bar `b` whose redirect targets `tgt` with `redirectCount = k ≥ 1`
(and no higher-priority navigation applying to it) produces exactly `k`
redirect jumps, counted by the tracking entry keyed to the
`(sourceBar, targetBar)` pair: across repeated completions of bar `b`, the
counter equals the number of jumps taken (completions 1..k each land on the
target's position), and the `(k+1)`-st completion resets the counter to 0
and falls through to the normal advance onto bar `b + 1`, so the redirect
can fire again on a later pass. -/
theorem C1_redirect_count (s0 : Rich.Server) (now : ℚ) (b tgt k si bi : ℤ)
    (fb fb2 : Rich.FlatBar) (sec : Section)
    (hb1 : 1 ≤ b) (hb2 : b ≤ sumBars s0.scoreData.sections)
    (hjt : jumpTarget s0.scoreData.sections b = (si, bi))
    (hfb : jsGet? (Rich.buildFlatBars s0.scoreData) (b - 1) = Option.some fb)
    (hfine : fb.fine = false) (htc : fb.toCoda = false) (hds : fb.dalSegno = false)
    (hdc : fb.daCapo = false) (her : fb.endRepeat = false)
    (hred : fb.redirect = Option.some tgt) (htgt : tgt ≠ 0)
    (hk : fb.redirectCount = k) (hk1 : 1 ≤ k)
    (hsec : jsGet? s0.scoreData.sections si = Option.some sec)
    (hbin : bi + 1 < (sec.bars.length : ℤ))
    (hnext : jsGet? (Rich.buildFlatBars s0.scoreData) b = Option.some fb2)
    (hnv : fb2.volta = Option.none)
    (hlc : s0.loopCurrentBarEnabled = false)
    (hpj : s0.pendingJump = Option.none)
    (hloop : s0.loopEnabled = false)
    (hpass : s0.currentPassNumber = 1)
    (htr0 : s0.redirectTracking (b, tgt) = 0) :
    (∀ n : ℕ, n ≤ k.toNat →
      ((Rich.completeBarAt now b)^[n] s0).redirectTracking (b, tgt) = (n : ℤ)) ∧
    (∀ n : ℕ, 1 ≤ n → n ≤ k.toNat →
      (((Rich.completeBarAt now b)^[n] s0).currentSectionIndex,
       ((Rich.completeBarAt now b)^[n] s0).currentBarInSection)
        = jumpTarget s0.scoreData.sections tgt) ∧
    ((Rich.completeBarAt now b)^[k.toNat + 1] s0).redirectTracking (b, tgt) = 0 ∧
    ((Rich.completeBarAt now b)^[k.toNat + 1] s0).currentSectionIndex = si ∧
    ((Rich.completeBarAt now b)^[k.toNat + 1] s0).currentBarInSection = bi + 1 := by
  obtain ⟨j, sec', hget, hjt2, hlo, hhi, habs'⟩ :=
    jumpTarget_spec s0.scoreData.sections b hb1 hb2
  rw [hjt] at hjt2
  have hsj := congrArg Prod.fst hjt2
  have hbj := congrArg Prod.snd hjt2
  simp only at hsj hbj
  have habs : absAt s0.scoreData.sections si bi = b := by
    rw [hsj, hbj]; exact habs'
  have main : ∀ n : ℕ, n ≤ k.toNat →
      ((Rich.completeBarAt now b)^[n] s0).scoreData = s0.scoreData ∧
      ((Rich.completeBarAt now b)^[n] s0).loopCurrentBarEnabled = false ∧
      ((Rich.completeBarAt now b)^[n] s0).pendingJump = Option.none ∧
      ((Rich.completeBarAt now b)^[n] s0).loopEnabled = false ∧
      ((Rich.completeBarAt now b)^[n] s0).currentPassNumber = 1 ∧
      ((Rich.completeBarAt now b)^[n] s0).redirectTracking (b, tgt) = (n : ℤ) ∧
      (1 ≤ n →
        (((Rich.completeBarAt now b)^[n] s0).currentSectionIndex,
         ((Rich.completeBarAt now b)^[n] s0).currentBarInSection)
          = jumpTarget s0.scoreData.sections tgt) := by
    intro n
    induction n with
    | zero =>
      intro _
      exact ⟨rfl, hlc, hpj, hloop, hpass, by simpa using htr0, fun h => absurd h (by omega)⟩
    | succ m ih =>
      intro hm
      obtain ⟨hS, hL, hP, hO, hN, hT, _⟩ := ih (by omega)
      have hspec := Rich.completeBarAt_spec s0.scoreData now b tgt k si bi fb fb2 sec
        ((Rich.completeBarAt now b)^[m] s0) hS hjt habs hfb hfine htc hds hdc her hred htgt hk
        hsec hbin hnext hnv hL hP hO hN
      have hlt : ((Rich.completeBarAt now b)^[m] s0).redirectTracking (b, tgt) < k := by
        rw [hT]
        omega
      obtain ⟨h1, h2, h3, h4, h5, hjump, _⟩ := hspec
      obtain ⟨hT2, hPos2⟩ := hjump hlt
      rw [Function.iterate_succ_apply']
      refine ⟨h1, h2, h3, h4, h5, ?_, fun _ => hPos2⟩
      rw [hT2, hT]
      push_cast
      ring
  have hlast :
      ((Rich.completeBarAt now b)^[k.toNat + 1] s0).redirectTracking (b, tgt) = 0 ∧
      ((Rich.completeBarAt now b)^[k.toNat + 1] s0).currentSectionIndex = si ∧
      ((Rich.completeBarAt now b)^[k.toNat + 1] s0).currentBarInSection = bi + 1 := by
    obtain ⟨hS, hL, hP, hO, hN, hT, _⟩ := main k.toNat (le_refl _)
    have hspec := Rich.completeBarAt_spec s0.scoreData now b tgt k si bi fb fb2 sec
      ((Rich.completeBarAt now b)^[k.toNat] s0) hS hjt habs hfb hfine htc hds hdc her hred htgt hk
      hsec hbin hnext hnv hL hP hO hN
    have hnlt : ¬ ((Rich.completeBarAt now b)^[k.toNat] s0).redirectTracking (b, tgt) < k := by
      rw [hT]
      omega
    obtain ⟨hT3, hsi3, hbi3⟩ := hspec.2.2.2.2.2.2 hnlt
    rw [Function.iterate_succ_apply']
    exact ⟨hT3, hsi3, hbi3⟩
  exact ⟨fun n hn => ((main n hn).2.2.2.2.2.1),
    fun n h1 hn => ((main n hn).2.2.2.2.2.2 h1),
    hlast.1, hlast.2.1, hlast.2.2⟩

/-- A three-bar score whose middle bar redirects to bar 1 with
`redirectCount = 2`. -/
def c1Score : Score :=
  { sections :=
      [ { name := "A", tempo := 120, timeSignature := { beats := 4, noteValue := 4 },
          bars := [{}, { redirect := Option.some 1, redirectCount := Option.some 2 }, {}] } ] }

/-- The extended-engine state playing `c1Score` from bar 1 (fresh redirect
tracking). -/
def c1State : Rich.Server :=
  { scoreData := c1Score
    repeatSong := false
    loopEnabled := false
    loopStart := Option.none
    loopEnd := Option.none
    isPlaying := true
    inCountoff := false
    countoffBarsRemaining := 0
    currentSectionIndex := 0
    currentBarInSection := 0
    currentBeat := 0
    barStartTime := Option.some 0
    intervalRunning := true
    lastTriggeredBar := -1
    oscEnabled := false
    midiEnabled := false
    midiOutput := false
    clockRunning := false
    clockTempo := 0
    pendingJump := Option.none
    syncOffset := 0
    repeatStack := []
    currentPassNumber := 1
    hasJumpedViaDSorDC := false
    shouldWatchForToCodaOrFine := false
    loopCurrentBarEnabled := false
    loopCurrentBarNumber := Option.none
    redirectTracking := fun _ => 0
    events := [] }

theorem C1_redirect_count_witness :
    ((Rich.completeBarAt 0 2)^[1] c1State).redirectTracking (2, 1) = 1 ∧
    (((Rich.completeBarAt 0 2)^[2] c1State).currentSectionIndex,
     ((Rich.completeBarAt 0 2)^[2] c1State).currentBarInSection)
      = jumpTarget c1State.scoreData.sections 1 ∧
    ((Rich.completeBarAt 0 2)^[(2 : ℤ).toNat + 1] c1State).redirectTracking (2, 1) = 0 ∧
    ((Rich.completeBarAt 0 2)^[(2 : ℤ).toNat + 1] c1State).currentSectionIndex = 0 ∧
    ((Rich.completeBarAt 0 2)^[(2 : ℤ).toNat + 1] c1State).currentBarInSection = 1 + 1 :=
  have h := C1_redirect_count c1State 0 2 1 2 0 1
    ((Rich.buildFlatBars c1Score).get ⟨1, by decide⟩)
    ((Rich.buildFlatBars c1Score).get ⟨2, by decide⟩)
    (c1Score.sections.get ⟨0, by decide⟩)
    (by decide) (by decide) (by decide) (by decide) (by decide) (by decide) (by decide)
    (by decide) (by decide) (by decide) (by decide) (by decide) (by decide) (by decide)
    (by decide) (by decide) rfl rfl rfl rfl rfl rfl
  ⟨h.1 1 (by decide), h.2.1 2 (by decide) (by decide), h.2.2.1, h.2.2.2.1, h.2.2.2.2⟩
